import Mathlib

/- Formal model of the loopyter notebook application core, embedded shallowly in
Lean 4. The definitions below are translated from the TypeScript sources:

  * `webapp/src/lib/parseResults.ts` (tier-1 tagged-line stdout parsing),
  * the `useCellResults` hook (leaderboard aggregation over notebook cells),
  * `webapp/src/hooks/useNotebookCells.ts` (the notebook cell store and `runCell`),
  * the backend `runs` router (GET /api/runs/:sessionId),
  * the model-builder chat `runExperiment` / `runAllExperiments` loop and the
    AIPanel auto-run loop (experiment orchestration).

JavaScript strings are modelled as `List Char`, JS numbers as `ℚ` (with a
separate `nan` marker where `parseFloat` can fail), `null`/`undefined` as
`Option`, and JS objects as Lean structures.  `JSON.parse` is modelled by an
executable JSON parser returning `Option Json`; a thrown parse exception is
`none`.  Stateful React hooks are modelled as explicit state-passing functions.
All definitions are executable so that theorems can be checked on concrete
inputs by evaluation. -/

/-! ### Character and string primitives -/

/-- Boolean prefix test on character lists; models JS `String.prototype.startsWith`. -/
def lstarts : List Char → List Char → Bool
  | [], _ => true
  | p :: ps, cs =>
    match cs with
    | [] => false
    | c :: rest => p == c && lstarts ps rest

/-- Whitespace class used by JS `trim` / `\s` (ASCII portion). -/
def isWsChar (c : Char) : Bool :=
  c == ' ' || c == '\t' || c == '\n' || c == '\r' || c == '\x0b' || c == '\x0c'

/-- Models JS `String.prototype.trim`: removes leading and trailing whitespace. -/
def trimL (cs : List Char) : List Char :=
  ((cs.dropWhile isWsChar).reverse.dropWhile isWsChar).reverse

/-- Splits a character list at every newline; models JS `stdout.split('\n')`. -/
def splitOnNl : List Char → List (List Char)
  | [] => [[]]
  | c :: rest =>
    let tail := splitOnNl rest
    if c == '\n' then [] :: tail
    else
      match tail with
      | [] => [[c]]
      | l :: ls => (c :: l) :: ls

/-- Numeric value of a decimal digit character. -/
def digToNat (c : Char) : ℕ := c.toNat - '0'.toNat

/-- Value of a digit string, most significant first. -/
def digitsVal (cs : List Char) : ℕ := cs.foldl (fun a c => 10 * a + digToNat c) 0

/-! ### JS numbers and `parseFloat` -/

/-- A JS number produced by `parseFloat`: either NaN or a rational value. -/
inductive JsNum where
  | nan : JsNum
  | num (q : ℚ) : JsNum
deriving DecidableEq

/-- Exponent suffix of a JS float literal: `[eE][+-]?digits`.  If the digits are
missing the exponent part is not consumed (JS `parseFloat "1e"` is `1`). -/
def floatExpVal (cs : List Char) : ℤ :=
  match cs with
  | 'e' :: t | 'E' :: t =>
    match t with
    | '-' :: u => let d := u.takeWhile Char.isDigit
                  if d.isEmpty then 0 else -(digitsVal d : ℤ)
    | '+' :: u => let d := u.takeWhile Char.isDigit
                  if d.isEmpty then 0 else (digitsVal d : ℤ)
    | _ => let d := t.takeWhile Char.isDigit
           if d.isEmpty then 0 else (digitsVal d : ℤ)
  | _ => 0

/-- Models JS `parseFloat`: skip leading whitespace, optional sign, longest
numeric prefix `digits [. digits] [exponent]`; NaN when no digit is found. -/
def parseFloatM (cs : List Char) : JsNum :=
  let cs0 := cs.dropWhile isWsChar
  let (sign, cs1) : ℤ × List Char :=
    match cs0 with
    | '-' :: t => (-1, t)
    | '+' :: t => (1, t)
    | _ => (1, cs0)
  let intD := cs1.takeWhile Char.isDigit
  let rest1 := cs1.drop intD.length
  let (fracD, rest2) : List Char × List Char :=
    match rest1 with
    | '.' :: t => (t.takeWhile Char.isDigit, t.drop (t.takeWhile Char.isDigit).length)
    | _ => ([], rest1)
  if intD.isEmpty && fracD.isEmpty then JsNum.nan
  else
    let e := floatExpVal rest2
    let mantissa : ℤ := sign * ((digitsVal intD : ℤ) * 10 ^ fracD.length + (digitsVal fracD : ℤ))
    if 0 ≤ e then JsNum.num (mkRat (mantissa * 10 ^ e.toNat) (10 ^ fracD.length))
    else JsNum.num (mkRat mantissa (10 ^ fracD.length * 10 ^ (-e).toNat))

/-! ### JSON values and a model of `JSON.parse` -/

inductive Json where
  | null : Json
  | bool (b : Bool) : Json
  | num (q : ℚ) : Json
  | str (s : List Char) : Json
  | arr (xs : List Json) : Json
  | obj (fields : List (List Char × Json)) : Json

/-- JSON whitespace skip. -/
def jsonWs (cs : List Char) : List Char :=
  cs.dropWhile (fun c => c == ' ' || c == '\t' || c == '\n' || c == '\r')

def hexVal (c : Char) : Option ℕ :=
  if c.isDigit then some (digToNat c)
  else
    let l := c.toLower.toNat
    if 97 ≤ l && l ≤ 102 then some (l - 87) else none

def jpStr : List Char → Option (List Char × List Char)
  | [] => none
  | '"' :: rest => some ([], rest)
  | '\\' :: 'u' :: a :: b :: c :: d :: rest =>
    match hexVal a, hexVal b, hexVal c, hexVal d with
    | some x1, some x2, some x3, some x4 =>
      (jpStr rest).map (fun (s, r) => (Char.ofNat (((x1 * 16 + x2) * 16 + x3) * 16 + x4) :: s, r))
    | _, _, _, _ => none
  | '\\' :: e :: rest =>
    let esc : Option Char :=
      if e == '"' then some '"'
      else if e == '\\' then some '\\'
      else if e == '/' then some '/'
      else if e == 'b' then some '\x08'
      else if e == 'f' then some '\x0c'
      else if e == 'n' then some '\n'
      else if e == 'r' then some '\r'
      else if e == 't' then some '\t'
      else none
    match esc with
    | some c => (jpStr rest).map (fun (s, r) => (c :: s, r))
    | none => none
  | c :: rest =>
    if c.toNat < 32 then none
    else (jpStr rest).map (fun (s, r) => (c :: s, r))

def jpNumFrac (neg : Bool) (iv : ℕ) (rest : List Char) : Option (Json × List Char) :=
  let (fd, rest2) : List Char × List Char :=
    match rest with
    | '.' :: t => (t.takeWhile Char.isDigit, t.drop (t.takeWhile Char.isDigit).length)
    | _ => ([], rest)
  let fracBad : Bool := match rest with | '.' :: _ => fd.isEmpty | _ => false
  if fracBad then none
  else
    let eparse : Option (ℤ × List Char) :=
      match rest2 with
      | 'e' :: t | 'E' :: t =>
        match t with
        | '-' :: u =>
          let d := u.takeWhile Char.isDigit
          if d.isEmpty then none else some (-(digitsVal d : ℤ), u.drop d.length)
        | '+' :: u =>
          let d := u.takeWhile Char.isDigit
          if d.isEmpty then none else some ((digitsVal d : ℤ), u.drop d.length)
        | _ =>
          let d := t.takeWhile Char.isDigit
          if d.isEmpty then none else some ((digitsVal d : ℤ), t.drop d.length)
      | _ => some (0, rest2)
    match eparse with
    | none => none
    | some (e, rest3) =>
      let m : ℤ := (if neg then -1 else 1) * ((iv : ℤ) * 10 ^ fd.length + (digitsVal fd : ℤ))
      let q : ℚ :=
        if 0 ≤ e then mkRat (m * 10 ^ e.toNat) (10 ^ fd.length)
        else mkRat m (10 ^ fd.length * 10 ^ (-e).toNat)
      some (Json.num q, rest3)

def jpNum (cs : List Char) : Option (Json × List Char) :=
  let (neg, cs1) : Bool × List Char := match cs with | '-' :: t => (true, t) | _ => (false, cs)
  match cs1 with
  | '0' :: rest => jpNumFrac neg 0 rest
  | c :: _ =>
    if c.isDigit then
      let d := cs1.takeWhile Char.isDigit
      jpNumFrac neg (digitsVal d) (cs1.drop d.length)
    else none
  | [] => none

inductive JpReq where
  | val : JpReq
  | arrElems : JpReq
  | arrRest : JpReq
  | objFields : JpReq
  | objRest : JpReq

def jpRun : ℕ → JpReq → List Char → Option (Json × List Char)
  | 0, _, _ => none
  | f + 1, JpReq.val, cs =>
    match jsonWs cs with
    | [] => none
    | '"' :: rest => (jpStr rest).map (fun (s, r) => (Json.str s, r))
    | '[' :: rest => jpRun f JpReq.arrElems rest
    | '{' :: rest => jpRun f JpReq.objFields rest
    | cs2 =>
      if lstarts "null".data cs2 then some (Json.null, cs2.drop 4)
      else if lstarts "true".data cs2 then some (Json.bool true, cs2.drop 4)
      else if lstarts "false".data cs2 then some (Json.bool false, cs2.drop 5)
      else jpNum cs2
  | f + 1, JpReq.arrElems, cs =>
    match jsonWs cs with
    | ']' :: rest => some (Json.arr [], rest)
    | cs2 =>
      match jpRun f JpReq.val cs2 with
      | none => none
      | some (v, r) =>
        match jpRun f JpReq.arrRest r with
        | some (Json.arr vs, r2) => some (Json.arr (v :: vs), r2)
        | _ => none
  | f + 1, JpReq.arrRest, cs =>
    match jsonWs cs with
    | ',' :: rest =>
      match jpRun f JpReq.val rest with
      | none => none
      | some (v, r) =>
        match jpRun f JpReq.arrRest r with
        | some (Json.arr vs, r2) => some (Json.arr (v :: vs), r2)
        | _ => none
    | ']' :: rest => some (Json.arr [], rest)
    | _ => none
  | f + 1, JpReq.objFields, cs =>
    match jsonWs cs with
    | '}' :: rest => some (Json.obj [], rest)
    | '"' :: rest =>
      match jpStr rest with
      | none => none
      | some (k, r) =>
        match jsonWs r with
        | ':' :: r2 =>
          match jpRun f JpReq.val r2 with
          | none => none
          | some (v, r3) =>
            match jpRun f JpReq.objRest r3 with
            | some (Json.obj kvs, r4) => some (Json.obj ((k, v) :: kvs), r4)
            | _ => none
        | _ => none
    | _ => none
  | f + 1, JpReq.objRest, cs =>
    match jsonWs cs with
    | ',' :: rest =>
      match jsonWs rest with
      | '"' :: rest2 =>
        match jpStr rest2 with
        | none => none
        | some (k, r) =>
          match jsonWs r with
          | ':' :: r2 =>
            match jpRun f JpReq.val r2 with
            | none => none
            | some (v, r3) =>
              match jpRun f JpReq.objRest r3 with
              | some (Json.obj kvs, r4) => some (Json.obj ((k, v) :: kvs), r4)
              | _ => none
          | _ => none
      | _ => none
    | '}' :: rest => some (Json.obj [], rest)
    | _ => none

def jsonParse (cs : List Char) : Option Json :=
  match jpRun (2 * cs.length + 8) JpReq.val cs with
  | some (j, rest) => if (jsonWs rest).isEmpty then some j else none
  | none => none

/-! ### Tier-1 tagged-line stdout parsing (`parseResults.ts`, `parseRunOutput`) -/

def mDATASET : List Char := "DATASET_INFO:".data

def mMODEL : List Char := "MODEL_TYPE:".data

def mACC : List Char := "ACCURACY:".data

def mPREC : List Char := "PRECISION:".data

def mRECALL : List Char := "RECALL:".data

def mF1 : List Char := "F1_SCORE:".data

def mCM : List Char := "CONFUSION_MATRIX:".data

def mDP : List Char := "DATA_PREVIEW:".data

def mDS : List Char := "DATA_STATS:".data

def mFD : List Char := "FEATURE_DISTRIBUTIONS:".data

/-- Models `line.replace(tag, '').trim()` as used in `parseRunOutput`, where it
is only evaluated under a `line.startsWith(tag)` guard, so the first occurrence
of the tag is the leading one and `replace` drops exactly the tag. -/
def stripTag (m line : List Char) : List Char := trimL (line.drop m.length)

/-- The combined data-preview payload assembled by `parseRunOutput`.  The
`columns`/`rows` fields hold whatever `parsed.columns || []` produced: usually
an array, but any truthy JSON value is kept verbatim (JS `||` does not check
the type), hence `Json`-typed fields. -/
structure DataPreviewM where
  columns : Json
  rows : Json
  stats : Json
  distributions : Json

/-- The record returned by `parseRunOutput`.  `JSON.parse` results are stored
verbatim (the TypeScript types are not checked at runtime), hence `Json`-typed
fields; `parseFloat` results are `JsNum` (NaN or a number). -/
structure ParsedRunResult where
  datasetInfo : Option Json := none
  modelType : Option (List Char) := none
  accuracy : Option JsNum := none
  precision : Option JsNum := none
  recall' : Option JsNum := none
  f1Score : Option JsNum := none
  confusionMatrix : Option Json := none
  dataPreview : Option DataPreviewM := none

/-- Mutable locals of `parseRunOutput` while scanning lines. -/
structure ParseAcc where
  datasetInfo : Option Json := none
  modelType : Option (List Char) := none
  accuracy : Option JsNum := none
  precision : Option JsNum := none
  recall' : Option JsNum := none
  f1Score : Option JsNum := none
  confusionMatrix : Option Json := none
  dpColumns : Json := Json.arr []
  dpRows : Json := Json.arr []
  dpStats : Json := Json.obj []
  dpDists : Json := Json.obj []

/-- Key lookup in a parsed JSON object; on duplicate keys the later assignment
wins, as in `JSON.parse`. -/
def jsField (j : Json) (key : List Char) : Option Json :=
  match j with
  | Json.obj kvs => kvs.reverse.lookup key
  | _ => none

/-- JS property access `base.key` on a `JSON.parse` result, for keys (here
`columns`/`rows`) that are not built-in properties of primitives or arrays: on
`null` the access throws a `TypeError` (outer `none`); on an object it is a key
lookup (`some none` is `undefined`); on a number, boolean, string or array the
property is absent, so the access yields `undefined` without throwing. -/
def jsFieldAccess (j : Json) (key : List Char) : Option (Option Json) :=
  match j with
  | Json.null => none
  | Json.obj kvs => some (jsField (Json.obj kvs) key)
  | _ => some none

/-- JS truthiness of a JSON value (falsy: `null`, `false`, `0`, `""`; `NaN`
cannot arise from `JSON.parse`). -/
def jsTruthy (v : Json) : Bool :=
  match v with
  | Json.null => false
  | Json.bool b => b
  | Json.num q => decide (q ≠ 0)
  | Json.str s => !s.isEmpty
  | Json.arr _ => true
  | Json.obj _ => true

/-- Models `x || []`: a truthy value is kept verbatim (whatever its type);
`undefined` and the falsy values are replaced by the empty array. -/
def jsOrEmptyArr (o : Option Json) : Json :=
  match o with
  | some j => if jsTruthy j then j else Json.arr []
  | none => Json.arr []

/-- Full-string decimal numeral per JS `ToNumber` on (already trimmed,
unsigned) strings: `digits [. digits] [exponent]` where at least one digit is
present, the exponent digits are mandatory and the whole string must be
consumed — otherwise `NaN` (`none`). -/
def strictNumQ (cs : List Char) : Option ℚ :=
  let intD := cs.takeWhile Char.isDigit
  let rest1 := cs.drop intD.length
  let (fracD, rest2) : List Char × List Char :=
    match rest1 with
    | '.' :: t => (t.takeWhile Char.isDigit, t.drop (t.takeWhile Char.isDigit).length)
    | _ => ([], rest1)
  if intD.isEmpty && fracD.isEmpty then none
  else
    let eparse : Option ℤ :=
      match rest2 with
      | [] => some 0
      | 'e' :: t | 'E' :: t =>
        match t with
        | '-' :: u => let d := u.takeWhile Char.isDigit
                      if d.isEmpty || !(u.drop d.length).isEmpty then none
                      else some (-(digitsVal d : ℤ))
        | '+' :: u => let d := u.takeWhile Char.isDigit
                      if d.isEmpty || !(u.drop d.length).isEmpty then none
                      else some (digitsVal d : ℤ)
        | _ => let d := t.takeWhile Char.isDigit
               if d.isEmpty || !(t.drop d.length).isEmpty then none
               else some (digitsVal d : ℤ)
      | _ => none
    match eparse with
    | none => none
    | some e =>
      let mantissa : ℤ := (digitsVal intD : ℤ) * 10 ^ fracD.length + (digitsVal fracD : ℤ)
      if 0 ≤ e then some (mkRat (mantissa * 10 ^ e.toNat) (10 ^ fracD.length))
      else some (mkRat mantissa (10 ^ fracD.length * 10 ^ (-e).toNat))

/-- Whether an unsigned decimal numeral string coerces to a positive number. -/
def jsDecPos (t : List Char) : Bool :=
  match strictNumQ t with
  | some q => decide (0 < q)
  | none => false

/-- Whether a `0x`/`0o`/`0b` radix integer literal (valid and positive); JS
`ToNumber` admits these only without a sign. -/
def jsRadixPos : List Char → Bool
  | '0' :: x :: rest =>
    if x == 'x' || x == 'X' then
      !rest.isEmpty && rest.all (fun c => (hexVal c).isSome)
        && rest.any (fun c => !(hexVal c == some 0))
    else if x == 'o' || x == 'O' then
      !rest.isEmpty && rest.all (fun c => 48 ≤ c.toNat && c.toNat ≤ 55)
        && rest.any (fun c => !(c == '0'))
    else if x == 'b' || x == 'B' then
      !rest.isEmpty && rest.all (fun c => c == '0' || c == '1')
        && rest.any (fun c => c == '1')
    else false
  | _ => false

/-- JS `ToNumber(s) > 0` for a string `s`: the string is trimmed; empty means
`0`; a leading minus can only yield a non-positive value or `NaN`; `Infinity`
is positive; then radix literals and strict decimal numerals. -/
def jsStrPos (s : List Char) : Bool :=
  let t := trimL s
  match t with
  | [] => false
  | '-' :: _ => false
  | '+' :: r => r = "Infinity".data || jsDecPos r
  | _ => t = "Infinity".data || jsRadixPos t || jsDecPos t

/-- JS `xs > 0` for an array `xs`, which `ToPrimitive` turns into
`xs.join(',')` before `ToNumber`: a join of two or more elements contains a
comma and coerces to `NaN`; an empty join is `""`, i.e. `0`; a single-element
join is that element's string — a number prints its value, `null` joins as
`""` (`0`), a string is itself, a nested array joins recursively, and a
boolean or object string is not numeric (`NaN`). -/
def jsArrPos : List Json → Bool
  | [] => false
  | [Json.num q] => decide (0 < q)
  | [Json.str s] => jsStrPos s
  | [Json.null] => false
  | [Json.arr xs] => jsArrPos xs
  | [_] => false
  | _ :: _ :: _ => false

/-- JS `v > 0` for a JSON value `v` (the relational comparison coerces `v`
with `ToNumber`; objects stringify to `"[object Object]"`, i.e. `NaN`). -/
def jsGtZero (v : Json) : Bool :=
  match v with
  | Json.num q => decide (0 < q)
  | Json.bool b => b
  | Json.null => false
  | Json.str s => jsStrPos s
  | Json.arr xs => jsArrPos xs
  | Json.obj _ => false

/-- JS `v.length > 0` for the accumulated data-preview columns value.  `v` is
never `null` here, because a `null` field is falsy and `parsed.columns || []`
replaces it by `[]` (the `null` case below is unreachable and mapped to
`false`).  Arrays and strings have a numeric `length`; a plain object has a
`length` property only if one of its keys is `"length"`; on numbers and
booleans `.length` is `undefined`, and `undefined > 0` is `false`. -/
def jsLenPos (v : Json) : Bool :=
  match v with
  | Json.arr xs => decide (0 < xs.length)
  | Json.str s => decide (0 < s.length)
  | Json.obj kvs =>
    match jsField (Json.obj kvs) "length".data with
    | some w => jsGtZero w
    | none => false
  | _ => false

/-- Number of distinct keys in a key list (each key counted once, at its last
occurrence — `JSON.parse` collapses duplicate keys, later wins). -/
def keyCount : List (List Char) → ℕ
  | [] => 0
  | k :: rest => (if rest.contains k then 0 else 1) + keyCount rest

/-- Models `Object.keys(x).length` for the values `JSON.parse` can produce:
`Object.keys(null)` throws a `TypeError` (`none`); an object's keys are its
distinct keys; an array's or string's own enumerable keys are its indices;
numbers and booleans have none. -/
def jsKeysCount (j : Json) : Option ℕ :=
  match j with
  | Json.null => none
  | Json.obj kvs => some (keyCount (kvs.map Prod.fst))
  | Json.arr xs => some xs.length
  | Json.str s => some s.length
  | _ => some 0

/-- One iteration of the line loop in `parseRunOutput`.  At most one of the
`startsWith` guards can fire per line, since no recognized tag is a prefix of
another; the per-line `try/catch` is modelled by returning the accumulator
unchanged when a statement of the guarded block throws — either `JSON.parse`
failing, or, in the `DATA_PREVIEW:` branch, the property access
`parsed.columns` throwing a `TypeError` because the payload parsed to `null`
(in which case neither preview accumulator is reassigned: both keep their
previous values). -/
def processLine (a : ParseAcc) (line : List Char) : ParseAcc :=
  if lstarts mDATASET line then
    match jsonParse (stripTag mDATASET line) with
    | some j => { a with datasetInfo := some j }
    | none => a
  else if lstarts mMODEL line then { a with modelType := some (stripTag mMODEL line) }
  else if lstarts mACC line then { a with accuracy := some (parseFloatM (stripTag mACC line)) }
  else if lstarts mPREC line then { a with precision := some (parseFloatM (stripTag mPREC line)) }
  else if lstarts mRECALL line then { a with recall' := some (parseFloatM (stripTag mRECALL line)) }
  else if lstarts mF1 line then { a with f1Score := some (parseFloatM (stripTag mF1 line)) }
  else if lstarts mCM line then
    match jsonParse (stripTag mCM line) with
    | some j => { a with confusionMatrix := some j }
    | none => a
  else if lstarts mDP line then
    match jsonParse (stripTag mDP line) with
    | some j =>
      match jsFieldAccess j "columns".data with
      | some cv =>
        match jsFieldAccess j "rows".data with
        | some rv => { a with dpColumns := jsOrEmptyArr cv, dpRows := jsOrEmptyArr rv }
        | none => a
      | none => a
    | none => a
  else if lstarts mDS line then
    match jsonParse (stripTag mDS line) with
    | some j => { a with dpStats := j }
    | none => a
  else if lstarts mFD line then
    match jsonParse (stripTag mFD line) with
    | some j => { a with dpDists := j }
    | none => a
  else a

/-- The final combination step of `parseRunOutput`.  It runs after the line
loop, outside the per-line `try/catch`.  Mirroring the source guard
`dataPreviewColumns.length > 0 || Object.keys(dataStats).length > 0`, the left
operand is evaluated first and `||` short-circuits; only when it is false is
`Object.keys(dataStats)` evaluated, and that throws an uncaught `TypeError`
when `dataStats` is `null` — the whole `parseRunOutput` call aborts (`none`). -/
def finalizeParse (a : ParseAcc) : Option ParsedRunResult :=
  let base : ParsedRunResult :=
    { datasetInfo := a.datasetInfo, modelType := a.modelType, accuracy := a.accuracy,
      precision := a.precision, recall' := a.recall', f1Score := a.f1Score,
      confusionMatrix := a.confusionMatrix }
  if jsLenPos a.dpColumns then
    some { base with dataPreview := some ⟨a.dpColumns, a.dpRows, a.dpStats, a.dpDists⟩ }
  else
    match jsKeysCount a.dpStats with
    | none => none
    | some k =>
      if 0 < k then
        some { base with dataPreview := some ⟨a.dpColumns, a.dpRows, a.dpStats, a.dpDists⟩ }
      else some base

/-- Tier-1 parsing over an explicit list of lines; `none` models the uncaught
`TypeError` of the combination step. -/
def parseRunLines (lines : List (List Char)) : Option ParsedRunResult :=
  finalizeParse (lines.foldl processLine {})

/-- Models `parseRunOutput(stdout)` from `parseResults.ts`: split stdout on
newlines, scan the lines, then combine the data preview.  A `some` result is a
normal return; `none` is the uncaught `TypeError` raised by
`Object.keys(dataStats)` when a well-formed `DATA_STATS:` line set `dataStats`
to `null`.  This function is pure and deterministic; the AI-gateway (tier 2)
is a different code path and is never invoked from here. -/
def parseRunOutput (stdout : String) : Option ParsedRunResult :=
  parseRunLines (splitOnNl stdout.data)

/-! ### Notebook cells and detected models (`useNotebookCells.ts` data model) -/

/-- Cell kind. -/
inductive CellType where
  | code : CellType
  | markdown : CellType
deriving DecidableEq

/-- Metrics of a detected model (the `recall` slot is written `recall'` because
`recall` is a reserved word in this development's proof library). -/
structure DetectedMetrics where
  accuracy : Option ℚ := none
  precision : Option ℚ := none
  recall' : Option ℚ := none
  f1Score : Option ℚ := none
  loss : Option ℚ := none
  customMetrics : Option (List (String × ℚ)) := none
deriving DecidableEq

/-- Dataset summary attached to a detection result. -/
structure DatasetInfoM where
  rows : Option ℚ := none
  columns : Option ℚ := none
  features : Option (List String) := none
deriving DecidableEq

/-- The `DetectedModel` attached to a cell after tier-2 detection. -/
structure DetectedModel where
  detected : Bool
  modelType : Option String := none
  metrics : DetectedMetrics := {}
  confusionMatrix : Option (List (List ℚ)) := none
  datasetInfo : Option DatasetInfoM := none
  summary : String := ""
deriving DecidableEq

/-- A notebook cell. `isRunning` is optional in the source and absent means
false, so it is a plain `Bool` here. -/
structure Cell where
  id : String
  type : CellType
  content : String := ""
  output : Option String := none
  error : Option String := none
  isRunning : Bool := false
  detectedModel : Option DetectedModel := none
deriving DecidableEq

/-! ### Leaderboard aggregation (`useCellResults`) -/

/-- One leaderboard entry derived from a cell. -/
structure DetectedRun where
  cellId : String
  modelType : Option String
  accuracy : ℚ
  precision : Option ℚ
  recall' : Option ℚ
  f1Score : Option ℚ
  confusionMatrix : Option (List (List ℚ))
  summary : String
deriving DecidableEq

/-- The filter predicate of `useCellResults`: the cell has a detection with
`detected === true` and either a direct accuracy or an r2/R2 custom metric. -/
def cellQualifies (c : Cell) : Bool :=
  match c.detectedModel with
  | none => false
  | some dm =>
    dm.detected &&
      (dm.metrics.accuracy.isSome ||
        (match dm.metrics.customMetrics with
         | some cm => (cm.lookup "r2").isSome || (cm.lookup "R2").isSome
         | none => false))

/-- Effective accuracy of a detection: `metrics.accuracy`, else `customMetrics.r2`,
else `customMetrics.R2`, else `0` (the trailing `?? 0` of the source). -/
def effAccuracy (dm : DetectedModel) : ℚ :=
  match dm.metrics.accuracy with
  | some a => a
  | none =>
    match dm.metrics.customMetrics with
    | some cm =>
      match cm.lookup "r2" with
      | some v => v
      | none =>
        match cm.lookup "R2" with
        | some v => v
        | none => 0
    | none => 0

/-- The `map` step of `useCellResults` building a `DetectedRun` from a cell.
The `none` branch is unreachable after the qualifying filter (the source uses a
non-null assertion there) and yields an inert default. -/
def toDetectedRun (c : Cell) : DetectedRun :=
  match c.detectedModel with
  | some dm =>
    { cellId := c.id, modelType := dm.modelType, accuracy := effAccuracy dm,
      precision := dm.metrics.precision, recall' := dm.metrics.recall',
      f1Score := dm.metrics.f1Score, confusionMatrix := dm.confusionMatrix,
      summary := dm.summary }
  | none =>
    { cellId := c.id, modelType := none, accuracy := 0, precision := none,
      recall' := none, f1Score := none, confusionMatrix := none, summary := "" }

/-- Comparator order of `detectedRuns`: the JS sort comparator
`(a, b) => b.accuracy - a.accuracy` puts `a` no later than `b` exactly when
`b.accuracy ≤ a.accuracy`. -/
def runGe (a b : DetectedRun) : Prop := b.accuracy ≤ a.accuracy

instance : DecidableRel runGe := fun a b => inferInstanceAs (Decidable (b.accuracy ≤ a.accuracy))

instance : IsTotal DetectedRun runGe :=
  ⟨fun a b => by unfold runGe; exact (le_total a.accuracy b.accuracy).symm⟩

instance : IsTrans DetectedRun runGe :=
  ⟨fun _ _ _ h1 h2 => by unfold runGe at *; exact le_trans h2 h1⟩

/-- The qualifying runs in original cell order (filter + map of the source,
before sorting). -/
def qualifyingRuns (cells : List Cell) : List DetectedRun :=
  (cells.filter cellQualifies).map toDetectedRun

/-- `detectedRuns` of `useCellResults`: qualifying cells mapped to runs and
sorted descending by accuracy.  `Array.prototype.sort` is a stable sort
(ES2019), and the stable descending sort of a list is unique, so it is modelled
by insertion sort with the non-strict order `runGe`. -/
def detectedRuns (cells : List Cell) : List DetectedRun :=
  List.insertionSort runGe (qualifyingRuns cells)

/-- `bestRun`: the head of the leaderboard if non-empty (`detectedRuns[0]`). -/
def bestRun (cells : List Cell) : Option DetectedRun :=
  if 0 < (detectedRuns cells).length then (detectedRuns cells).get? 0 else none

/-- Cells with any detection at all (no accuracy requirement): the
`cellsWithDetection` filter of the source. -/
def cellsWithDetection (cells : List Cell) : List Cell :=
  cells.filter fun c =>
    match c.detectedModel with
    | some dm => dm.detected
    | none => false

/-- `latestCell`: the last cell with a detection, in cell order. -/
def latestCell (cells : List Cell) : Option Cell :=
  (cellsWithDetection cells).getLast?

/-- `latestRun`: built from `latestCell` only when that cell's detection has a
direct `metrics.accuracy`; note that the source uses no r2/R2 fallback here. -/
def latestRun (cells : List Cell) : Option DetectedRun :=
  match latestCell cells with
  | none => none
  | some c =>
    match c.detectedModel with
    | some dm =>
      match dm.metrics.accuracy with
      | some a =>
        some { cellId := c.id, modelType := dm.modelType, accuracy := a,
               precision := dm.metrics.precision, recall' := dm.metrics.recall',
               f1Score := dm.metrics.f1Score, confusionMatrix := dm.confusionMatrix,
               summary := dm.summary }
      | none => none
    | none => none

/-- `latestDetectedModel` of `useCellResults`. -/
def latestDetectedModel (cells : List Cell) : Option DetectedModel :=
  (latestCell cells).bind (·.detectedModel)

/-- `totalDetectedModels` of `useCellResults`. -/
def totalDetectedModels (cells : List Cell) : ℕ :=
  (detectedRuns cells).length

/-! ### The notebook cell store (`useNotebookCells.ts`) -/

/-- Hook state: the ordered cell list and the active cell id. -/
structure NotebookState where
  cells : List Cell
  activeCellId : Option String
deriving DecidableEq

/-- Placement rule shared by `addCell` and `addCellWithContent`: insert directly
after `afterId` when given and found, else append at the end. -/
def insertAfterId (cells : List Cell) (afterId : Option String) (newCell : Cell) : List Cell :=
  match afterId with
  | some aid =>
    match cells.findIdx? (fun c => c.id == aid) with
    | some i => cells.take (i + 1) ++ newCell :: cells.drop (i + 1)
    | none => cells ++ [newCell]
  | none => cells ++ [newCell]

/-- `addCell(type, afterId?)`; the fresh id from `generateId()` is a parameter. -/
def addCell (s : NotebookState) (newId : String) (t : CellType) (afterId : Option String) :
    NotebookState :=
  let newCell : Cell := { id := newId, type := t, content := "" }
  { cells := insertAfterId s.cells afterId newCell, activeCellId := some newId }

/-- `addCellWithContent(type, content, afterId?)`. -/
def addCellWithContent (s : NotebookState) (newId : String) (t : CellType) (content : String)
    (afterId : Option String) : NotebookState :=
  let newCell : Cell := { id := newId, type := t, content := content }
  { cells := insertAfterId s.cells afterId newCell, activeCellId := some newId }

/-- `deleteCell(id)`: no-op when at most one cell remains; otherwise remove the
cell and, when it was active, select the cell now at `max(0, index - 1)` (the
source's `newCells[Math.max(0, index - 1)]?.id || null`). -/
def deleteCell (s : NotebookState) (id : String) : NotebookState :=
  if s.cells.length ≤ 1 then s
  else
    let idx := s.cells.findIdx? (fun c => c.id == id)
    let newCells := s.cells.filter (fun c => c.id != id)
    let accessIdx : ℕ := match idx with | some i => i - 1 | none => 0
    let newActive : Option String :=
      if s.activeCellId = some id then
        match newCells.get? accessIdx with
        | some c => if c.id = "" then none else some c.id
        | none => none
      else s.activeCellId
    { cells := newCells, activeCellId := newActive }

/-- `updateCellContent(id, content)`. -/
def updateCellContent (s : NotebookState) (id : String) (content : String) : NotebookState :=
  { s with cells := s.cells.map fun c => if c.id == id then { c with content := content } else c }

/-- `setCellOutput(id, output?, error?)`: replaces both fields. -/
def setCellOutput (s : NotebookState) (id : String) (o e : Option String) : NotebookState :=
  { s with cells := s.cells.map fun c => if c.id == id then { c with output := o, error := e } else c }

/-- `setCellRunning(id, isRunning)`. -/
def setCellRunning (s : NotebookState) (id : String) (b : Bool) : NotebookState :=
  { s with cells := s.cells.map fun c => if c.id == id then { c with isRunning := b } else c }

/-- `setCellDetectedModel(id, detectedModel?)`. -/
def setCellDetectedModel (s : NotebookState) (id : String) (dm : Option DetectedModel) :
    NotebookState :=
  { s with cells := s.cells.map fun c => if c.id == id then { c with detectedModel := dm } else c }

/-- Swap the elements at two positions (the destructuring swap of `moveCell`). -/
def swapIdx (l : List Cell) (i j : ℕ) : List Cell :=
  match l.get? i, l.get? j with
  | some a, some b => (l.set i b).set j a
  | _, _ => l

/-- `moveCell(id, direction)`: swap with the neighbour, no-op at the borders or
when the id is not present. -/
def moveCell (s : NotebookState) (id : String) (up : Bool) : NotebookState :=
  match s.cells.findIdx? (fun c => c.id == id) with
  | none => s
  | some i =>
    let newIndex : ℤ := if up then (i : ℤ) - 1 else (i : ℤ) + 1
    if newIndex < 0 || (s.cells.length : ℤ) ≤ newIndex then s
    else { s with cells := swapIdx s.cells i newIndex.toNat }

/-- `setActiveCell(id | null)`. -/
def setActiveCell (s : NotebookState) (id : Option String) : NotebookState :=
  { s with activeCellId := id }

/-- `convertCellType(id, newType)`: also clears output and error. -/
def convertCellType (s : NotebookState) (id : String) (t : CellType) : NotebookState :=
  { s with cells := s.cells.map fun c =>
      if c.id == id then { c with type := t, output := none, error := none } else c }

/-- `clearAllOutputs()`. -/
def clearAllOutputs (s : NotebookState) : NotebookState :=
  { s with cells := s.cells.map fun c =>
      { c with output := none, error := none, detectedModel := none } }

/-- `setCells(newCells)`: wholesale replacement used to load a notebook; the
active cell becomes the first new cell when the new list is non-empty. -/
def setCells (s : NotebookState) (newCells : List Cell) : NotebookState :=
  match newCells with
  | c :: _ => { cells := newCells, activeCellId := some c.id }
  | [] => { cells := newCells, activeCellId := s.activeCellId }

/-- The store's state-mutating operations, one constructor per setter exposed by
`useNotebookCells` (`runCell`/`runAllCells` are compositions of these setters). -/
inductive CellOp where
  | add (newId : String) (t : CellType) (afterId : Option String) : CellOp
  | addWithContent (newId : String) (t : CellType) (content : String) (afterId : Option String) : CellOp
  | delete (id : String) : CellOp
  | updateContent (id : String) (content : String) : CellOp
  | setOutput (id : String) (o e : Option String) : CellOp
  | setRunning (id : String) (b : Bool) : CellOp
  | setDetected (id : String) (dm : Option DetectedModel) : CellOp
  | move (id : String) (up : Bool) : CellOp
  | setActive (id : Option String) : CellOp
  | convertType (id : String) (t : CellType) : CellOp
  | clearOutputs : CellOp
  | setCellList (cs : List Cell) : CellOp

/-- Apply one store operation to the hook state. -/
def applyCellOp (op : CellOp) (s : NotebookState) : NotebookState :=
  match op with
  | CellOp.add newId t afterId => addCell s newId t afterId
  | CellOp.addWithContent newId t content afterId => addCellWithContent s newId t content afterId
  | CellOp.delete id => deleteCell s id
  | CellOp.updateContent id content => updateCellContent s id content
  | CellOp.setOutput id o e => setCellOutput s id o e
  | CellOp.setRunning id b => setCellRunning s id b
  | CellOp.setDetected id dm => setCellDetectedModel s id dm
  | CellOp.move id up => moveCell s id up
  | CellOp.setActive id => setActiveCell s id
  | CellOp.convertType id t => convertCellType s id t
  | CellOp.clearOutputs => clearAllOutputs s
  | CellOp.setCellList cs => setCells s cs

/-- The initial hook state: the provided cells, or one default code cell. -/
def initNotebookState (initialCells : List Cell) (defaultId : String) : NotebookState :=
  if 0 < initialCells.length then
    { cells := initialCells, activeCellId := (initialCells.get? 0).map (·.id) }
  else
    { cells := [{ id := defaultId, type := CellType.code, content := "# Your code here\n" }],
      activeCellId := none }

/-! ### `runCell` (`useNotebookCells.ts`) -/

/-- Outcome of the execution adapter for one run: the resolved
`{stdout, error}` record, or a thrown exception. -/
inductive ExecOutcome where
  | ok (stdout : String) (error : Option String) : ExecOutcome
  | threw (msg : String) : ExecOutcome
deriving DecidableEq

/-- Outcome of the tier-2 detection call: a detection payload, a response with
`detected: false`, or a thrown/failed request. -/
inductive DetOutcome where
  | detected (dm : DetectedModel) : DetOutcome
  | noModel : DetOutcome
  | failed : DetOutcome
deriving DecidableEq

/-- Models `result.error || undefined`: an empty-string error becomes absent. -/
def normErr (e : Option String) : Option String :=
  match e with
  | some s => if s = "" then none else some s
  | none => none

/-- Models `runCell(id)`.  Returns the final state together with a flag telling
whether the tier-2 detection request was issued.  The no-op guard (missing
cell, non-code cell, engine not ready) returns the state unchanged; otherwise
the source sets `isRunning`, clears `output`/`error`/`detectedModel`, executes,
stores the result, optionally runs detection, and clears `isRunning` in a
`finally` block. -/
def runCell (s : NotebookState) (id : String) (ready : Bool) (exec : ExecOutcome)
    (det : DetOutcome) : NotebookState × Bool :=
  match s.cells.find? (fun c => c.id == id) with
  | none => (s, false)
  | some cell =>
    if cell.type != CellType.code || !ready then (s, false)
    else
      let s1 := setCellRunning s id true
      let s2 := setCellOutput s1 id none none
      let s3 := setCellDetectedModel s2 id none
      match exec with
      | ExecOutcome.threw msg =>
        (setCellRunning (setCellOutput s3 id none (some msg)) id false, false)
      | ExecOutcome.ok stdout err =>
        let err' := normErr err
        let s4 := setCellOutput s3 id (some stdout) err'
        if stdout != "" && err'.isNone then
          match det with
          | DetOutcome.detected dm =>
            (setCellRunning (setCellDetectedModel s4 id (some dm)) id false, true)
          | DetOutcome.noModel => (setCellRunning s4 id false, true)
          | DetOutcome.failed => (setCellRunning s4 id false, true)
        else (setCellRunning s4 id false, false)

/-! ### Backend runs router (`GET /api/runs/:sessionId`, `POST /api/runs`) -/

/-- A persisted `Run` row (columns not involved in the routing/sorting claims
carry their database types). -/
structure RunRec where
  id : String
  sessionId : String
  name : String
  code : String
  accuracy : ℚ
  precision : Option ℚ := none
  recall' : Option ℚ := none
  f1Score : Option ℚ := none
  modelType : String
  stdout : Option String := none
  error : Option String := none
  isImproved : Bool := false
  createdAt : String := ""
deriving DecidableEq

/-- The relevant database state: ids present in the better-auth `session`
table (`prisma.session`), ids present in the `mLSession` table
(`prisma.mLSession`), and the `run` rows. -/
structure BackendDb where
  authSessions : List String
  mlSessions : List String
  runs : List RunRec
deriving DecidableEq

/-- Descending-accuracy order used for the persisted-run leaderboard
(`orderBy: accuracy desc`). -/
def runRecGe (a b : RunRec) : Prop := b.accuracy ≤ a.accuracy

instance : DecidableRel runRecGe := fun a b => inferInstanceAs (Decidable (b.accuracy ≤ a.accuracy))

instance : IsTotal RunRec runRecGe :=
  ⟨fun a b => by unfold runRecGe; exact (le_total a.accuracy b.accuracy).symm⟩

instance : IsTrans RunRec runRecGe :=
  ⟨fun _ _ _ h1 h2 => by unfold runRecGe at *; exact le_trans h2 h1⟩

/-- Response of the GET handler. -/
inductive RunsResponse where
  | ok (runs : List RunRec) : RunsResponse
  | notFound : RunsResponse
deriving DecidableEq

/-- Models the `GET /api/runs/:sessionId` handler: it verifies the session id
against `prisma.session` — the better-auth session table, not the ML-session
table — and returns 404 when that lookup fails, else the session's runs sorted
by accuracy descending. -/
def getRunsForSession (db : BackendDb) (sessionId : String) : RunsResponse :=
  if db.authSessions.contains sessionId then
    RunsResponse.ok
      (List.insertionSort runRecGe (db.runs.filter (fun r => r.sessionId == sessionId)))
  else RunsResponse.notFound

/-- Models the session-existence check of `POST /api/runs`, which consults
`prisma.mLSession` (the ML-session table created by `POST /api/sessions`). -/
def postRunSessionOk (db : BackendDb) (sessionId : String) : Bool :=
  db.mlSessions.contains sessionId

/-! ### Accuracy-extraction regexes shared by the experiment runners -/

/-- Character class `[:\s]` of the extraction regexes. -/
def isClsChar (c : Char) : Bool := c == ':' || isWsChar c

/-- Character class `[0-9.]` of the capture groups. -/
def isDigitDot (c : Char) : Bool := c.isDigit || c == '.'

/-- Case-insensitive literal match: strip `pat` (given lowercase) from the
front of the input, comparing case-insensitively. -/
def ciStrip : List Char → List Char → Option (List Char)
  | [], cs => some cs
  | _ :: _, [] => none
  | p :: ps, c :: cs => if p == c.toLower then ciStrip ps cs else none

/-- Matches `[:\s]+([0-9.]+)` at the head of the input and returns the capture.
Greedy matching is exact here because the two classes are disjoint. -/
def capAfterClass (cs : List Char) : Option (List Char) :=
  match cs with
  | c :: _ =>
    if isClsChar c then
      let cap := (cs.dropWhile isClsChar).takeWhile isDigitDot
      if cap.isEmpty then none else some cap
    else none
  | [] => none

/-- Match of `/R\^?2\s*(?:score)?[:\s]+([0-9.]+)/i` anchored at the head of the
input; returns the capture group.  The optional `score` literal can only start
after the maximal `\s*` run (it begins with a non-space character), and when
its branch fails the `(?:score)?`-empty branch is retried, as in regex
backtracking. -/
def r2MatchAt (cs : List Char) : Option (List Char) :=
  match ciStrip ['r'] cs with
  | none => none
  | some s1 =>
    let s2 := match s1 with | '^' :: t => t | _ => s1
    match ciStrip ['2'] s2 with
    | none => none
    | some a =>
      let b := a.dropWhile isWsChar
      match ciStrip "score".data b with
      | some c =>
        match capAfterClass c with
        | some cap => some cap
        | none => capAfterClass a
      | none => capAfterClass a

/-- Match of `/(?:accuracy|score)[:\s]+([0-9.]+)/i` anchored at the head. -/
def accScoreMatchAt (cs : List Char) : Option (List Char) :=
  match ciStrip "accuracy".data cs with
  | some rest => capAfterClass rest
  | none =>
    match ciStrip "score".data cs with
    | some rest => capAfterClass rest
    | none => none

/-- Leftmost match: `String.prototype.match` without the global flag. -/
def scanMatch (f : List Char → Option (List Char)) : List Char → Option (List Char)
  | [] => f []
  | c :: rest =>
    match f (c :: rest) with
    | some cap => some cap
    | none => scanMatch f rest

/-- Models `output.match(r2Regex) || output.match(accScoreRegex)` followed by
taking capture group 1. -/
def extractAccCapture (out : List Char) : Option (List Char) :=
  match scanMatch r2MatchAt out with
  | some cap => some cap
  | none => scanMatch accScoreMatchAt out

/-! ### Experiment orchestration: chat-flow runner and AIPanel auto-runner -/

/-- Experiment status state machine. -/
inductive ExpStatus where
  | pending : ExpStatus
  | running : ExpStatus
  | completed : ExpStatus
  | failed : ExpStatus
deriving DecidableEq

/-- A chat-panel experiment entry (presentation-only fields such as the
formatted output string and `isExpanded` are not modelled). -/
structure ChatExperiment where
  name : String
  status : ExpStatus := ExpStatus.pending
  accuracy : Option JsNum := none
  error : Option String := none
deriving DecidableEq

/-- Environment of one chat-flow `runExperiment` call: what the leaderboard
detection (`cellResults.detectedRuns`) reports for the created cell, and the
result of the fallback `execute` call; or a thrown exception. -/
inductive ChatExecEnv where
  | ok (detectedAcc : Option ℚ) (stdout : String) (error : Option String) : ChatExecEnv
  | threw (msg : String) : ChatExecEnv
deriving DecidableEq

/-- Models `result.stdout || 'Model trained successfully'` of the chat-flow
fallback path. -/
def chatFallbackOut (stdout : String) : String :=
  if stdout = "" then "Model trained successfully" else stdout

/-- Models the chat-panel `runExperiment` status/accuracy update.  When the
detection found a run for the cell its accuracy is used; otherwise the raw
stdout (or the `'Model trained successfully'` placeholder when empty) is
scanned with the R²/accuracy regexes, and the accuracy stays `undefined` when
neither matches.  The status becomes `failed` exactly when the fallback path
captured a non-empty error string, or the call threw. -/
def chatRunExperiment (exp : ChatExperiment) (env : ChatExecEnv) : ChatExperiment :=
  match env with
  | ChatExecEnv.ok detectedAcc stdout error =>
    match detectedAcc with
    | some a =>
      { exp with status := ExpStatus.completed, accuracy := some (JsNum.num a), error := none }
    | none =>
      let out : String := chatFallbackOut stdout
      let errorOutput : String := match error with | some e => e | none => ""
      let acc : Option JsNum := (extractAccCapture out.data).map parseFloatM
      { exp with
        status := if errorOutput ≠ "" then ExpStatus.failed else ExpStatus.completed,
        accuracy := acc,
        error := if errorOutput = "" then none else some errorOutput }
  | ChatExecEnv.threw msg =>
    { exp with status := ExpStatus.failed, error := some msg }

/-- Models the chat-panel `runAllExperiments` loop: it iterates over the whole
batch unconditionally — the function consults no stop flag and every
experiment is run. -/
def chatRunAllExperiments (batch : List (ChatExperiment × ChatExecEnv)) : List ChatExperiment :=
  batch.map fun p => chatRunExperiment p.1 p.2

/-- Result entry of the AIPanel auto-runner. -/
structure PanelResult where
  name : String
  accuracy : JsNum
  modelType : String
  status : ExpStatus
  error : Option String := none
deriving DecidableEq

/-- Environment of one AIPanel `runSingleExperiment` call. -/
inductive PanelExecEnv where
  | ok (stdout : String) : PanelExecEnv
  | threw (msg : String) : PanelExecEnv
deriving DecidableEq

/-- Models the AIPanel `runSingleExperiment`: on success the accuracy is the
regex extraction or `0` when nothing matches, and the status is `completed`;
on a thrown execution the status is `failed` and the accuracy stays `0`. -/
def panelRunSingleExperiment (name modelType : String) (env : PanelExecEnv) : PanelResult :=
  match env with
  | PanelExecEnv.ok stdout =>
    let acc : JsNum :=
      match extractAccCapture stdout.data with
      | some cap => parseFloatM cap
      | none => JsNum.num 0
    { name := name, accuracy := acc, modelType := modelType, status := ExpStatus.completed }
  | PanelExecEnv.threw msg =>
    { name := name, accuracy := JsNum.num 0, modelType := modelType,
      status := ExpStatus.failed, error := some msg }

/-! ### Concrete fixtures used in the theorems below -/

/-- A detection carrying only a direct accuracy. -/
def dmWithAcc (a : ℚ) : DetectedModel :=
  { detected := true, metrics := { accuracy := some a } }

/-- A code cell whose detection reports the direct accuracy `a`. -/
def cellWithAcc (id : String) (a : ℚ) : Cell :=
  { id := id, type := CellType.code, detectedModel := some (dmWithAcc a) }

/-- The spec's leaderboard example: detected accuracies 0.5, 0.9, 0.7 in cell order. -/
def exCells : List Cell :=
  [cellWithAcc "c1" (mkRat 1 2), cellWithAcc "c2" (mkRat 9 10), cellWithAcc "c3" (mkRat 7 10)]

/-- A detected cell with `metrics.accuracy = null` and `customMetrics.r2 = 0.81`. -/
def r2OnlyCell : Cell :=
  { id := "r2cell", type := CellType.code,
    detectedModel := some
      { detected := true,
        metrics := { accuracy := none, customMetrics := some [("r2", mkRat 81 100)] } } }

/-- A database where `"s1"` exists as an ML session (created by
`POST /api/sessions`) with one saved run, but no auth session has that id. -/
def exDb : BackendDb :=
  { authSessions := [], mlSessions := ["s1"],
    runs := [{ id := "run1", sessionId := "s1", name := "Baseline", code := "model.fit(X, y)",
               accuracy := mkRat 9 10, modelType := "RandomForestRegressor" }] }

/-- A fresh (pending) chat experiment. -/
def pendingExp (n : String) : ChatExperiment := { name := n }

/-- An execution environment where the run succeeds, detection reports nothing
and the stdout carries no recognizable accuracy pattern. -/
def benignEnv : ChatExecEnv := ChatExecEnv.ok none "training finished" none

/-- Five pending experiments with benign environments. -/
def fiveBatch : List (ChatExperiment × ChatExecEnv) :=
  [(pendingExp "e1", benignEnv), (pendingExp "e2", benignEnv), (pendingExp "e3", benignEnv),
   (pendingExp "e4", benignEnv), (pendingExp "e5", benignEnv)]

/-- A code cell with stale output, error and detection, used to exercise `runCell`. -/
def c7Cell : Cell :=
  { id := "a", type := CellType.code, content := "print(1)", output := some "old out",
    error := some "old err", isRunning := false, detectedModel := some (dmWithAcc (mkRat 1 2)) }

/-- A two-cell notebook whose first cell is `c7Cell`. -/
def c7State : NotebookState :=
  { cells := [c7Cell, { id := "b", type := CellType.markdown }], activeCellId := some "a" }

/-- Rewrites the output, error and detection fields of one cell in place. -/
def withCellFields (s : NotebookState) (id : String) (o e : Option String)
    (dm : Option DetectedModel) : NotebookState :=
  { s with cells := s.cells.map fun c =>
      if c.id == id then { c with output := o, error := e, detectedModel := dm } else c }

/-- A notebook holding a single cell. -/
def oneCellState : NotebookState :=
  { cells := [{ id := "only", type := CellType.code }], activeCellId := some "only" }

/-- A three-cell notebook with the first cell active. -/
def threeCellState : NotebookState :=
  { cells := [{ id := "x", type := CellType.code, content := "1" },
              { id := "y", type := CellType.markdown, content := "2" },
              { id := "z", type := CellType.code, content := "3" }],
    activeCellId := some "x" }

/-- The field rewrite `runCell` applies to the executed cell once it returns:
fresh output and error, the detection outcome, and `isRunning` cleared. -/
def runDoneUpd (o e : Option String) (dm : Option DetectedModel) (c : Cell) : Cell :=
  { c with output := o, error := e, isRunning := false, detectedModel := dm }

/-- The notebook state once `runCell` rewrote the executed cell's fields. -/
def runCellResult (s : NotebookState) (id : String) (o e : Option String)
    (dm : Option DetectedModel) : NotebookState :=
  { s with cells := s.cells.map fun c => if c.id == id then runDoneUpd o e dm c else c }

/-! ### Theorems.  Helper lemmas come first, then one theorem per claim. -/

theorem filter_orderedInsert_acc_eq (q : ℚ) (a : DetectedRun) (l : List DetectedRun)
    (ha : a.accuracy = q) :
    (List.orderedInsert runGe a l).filter (fun x => x.accuracy == q) =
      a :: l.filter (fun x => x.accuracy == q) := by
  induction l with
  | nil => simp [List.orderedInsert, ha]
  | cons b t ih =>
    by_cases h : runGe a b
    · simp [List.orderedInsert, h, List.filter_cons, ha]
    · have h' : ¬ (b.accuracy ≤ a.accuracy) := h
      have hb : (b.accuracy == q) = false := by
        simp only [beq_eq_false_iff_ne, ne_eq]
        intro heq
        rw [heq, ← ha] at h'
        exact h' (le_of_lt (not_le.mp (fun hle => h' (le_of_eq (le_antisymm hle (le_of_not_le h')).symm))))
      simp [List.orderedInsert, h, List.filter_cons, hb, ih]

theorem filter_orderedInsert_acc_ne (q : ℚ) (a : DetectedRun) (l : List DetectedRun)
    (ha : ¬ a.accuracy = q) :
    (List.orderedInsert runGe a l).filter (fun x => x.accuracy == q) =
      l.filter (fun x => x.accuracy == q) := by
  induction l with
  | nil => simp [List.orderedInsert, ha]
  | cons b t ih =>
    by_cases h : runGe a b
    · simp [List.orderedInsert, h, List.filter_cons, ha]
    · simp [List.orderedInsert, h, List.filter_cons, ih]

theorem filter_insertionSort_acc (q : ℚ) (l : List DetectedRun) :
    (List.insertionSort runGe l).filter (fun x => x.accuracy == q) =
      l.filter (fun x => x.accuracy == q) := by
  induction l with
  | nil => rfl
  | cons a t ih =>
    simp only [List.insertionSort]
    by_cases h : a.accuracy = q
    · rw [filter_orderedInsert_acc_eq q a _ h, ih, List.filter_cons]
      simp [h]
    · rw [filter_orderedInsert_acc_ne q a _ h, ih, List.filter_cons]
      simp [h]

/-- C1: `leaderboard()` (`detectedRuns`) contains exactly the qualifying cells
(detection present with `detected = true` and a usable accuracy, the
r2/R2 fallback included), sorted descending by effective accuracy; the sort is
stable (for every accuracy value, the entries carrying it appear in original
cell order, stated as filter-invariance); `bestRun` is the head of the
leaderboard and is `none` exactly when no cell qualifies; and on the spec's
example cells with accuracies [0.5, 0.9, 0.7] the leaderboard is
[0.9, 0.7, 0.5] with best run 0.9. -/
theorem C1_leaderboard_spec :
    (∀ cells : List Cell,
      (detectedRuns cells).Perm (qualifyingRuns cells)
      ∧ List.Sorted runGe (detectedRuns cells)
      ∧ (∀ q : ℚ, (detectedRuns cells).filter (fun x => x.accuracy == q) =
          (qualifyingRuns cells).filter (fun x => x.accuracy == q))
      ∧ bestRun cells = (detectedRuns cells).head?
      ∧ (bestRun cells = none ↔ qualifyingRuns cells = []))
    ∧ (detectedRuns exCells).map (fun r => r.accuracy) = [mkRat 9 10, mkRat 7 10, mkRat 1 2]
    ∧ (bestRun exCells).map (fun r => r.accuracy) = some (mkRat 9 10) := by
  refine ⟨fun cells => ⟨?_, ?_, ?_, ?_, ?_⟩, by decide, by decide⟩
  · exact List.perm_insertionSort runGe (qualifyingRuns cells)
  · exact List.sorted_insertionSort runGe (qualifyingRuns cells)
  · exact fun q => filter_insertionSort_acc q (qualifyingRuns cells)
  · cases h : detectedRuns cells with
    | nil => simp [bestRun, h]
    | cons a t => simp [bestRun, h]
  · have hlen : (detectedRuns cells).length = (qualifyingRuns cells).length :=
      List.length_insertionSort runGe (qualifyingRuns cells)
    constructor
    · intro hb
      cases h : detectedRuns cells with
      | nil =>
        rw [h] at hlen
        exact List.length_eq_zero.mp hlen.symm
      | cons a t => simp [bestRun, h] at hb
    · intro hq
      have : (detectedRuns cells).length = 0 := by rw [hlen, hq]; rfl
      have h0 : detectedRuns cells = [] := List.length_eq_zero.mp this
      simp [bestRun, h0]

/-- C2 (amended): `latestRun()` is built from the cell that appears last in
cell order among cells with `detectedModel.detected` (positional, not temporal,
recency), and it is non-null exactly when that last detected cell carries a
direct `metrics.accuracy`; the `customMetrics.r2`/`R2` fallback of the
leaderboard filter is NOT applied by `latestRun`, so a cell qualifying only
through r2 yields `latestRun = none`.  On the spec's example cells the latest
run has accuracy 0.7. -/
theorem C2_latestRun_spec :
    (∀ cells : List Cell, ∀ c : Cell, latestCell cells = some c →
      (∀ dm : DetectedModel, ∀ a : ℚ, c.detectedModel = some dm →
        dm.metrics.accuracy = some a →
        latestRun cells = some
          { cellId := c.id, modelType := dm.modelType, accuracy := a,
            precision := dm.metrics.precision, recall' := dm.metrics.recall',
            f1Score := dm.metrics.f1Score, confusionMatrix := dm.confusionMatrix,
            summary := dm.summary })
      ∧ (∀ dm : DetectedModel, c.detectedModel = some dm → dm.metrics.accuracy = none →
          latestRun cells = none))
    ∧ (∀ cells : List Cell, latestCell cells = none → latestRun cells = none)
    ∧ (latestRun exCells).map (fun r => r.accuracy) = some (mkRat 7 10)
    ∧ latestRun [r2OnlyCell] = none := by
  refine ⟨fun cells c hc => ⟨?_, ?_⟩, ?_, by decide, by decide⟩
  · intro dm a hdm ha
    simp [latestRun, hc, hdm, ha]
  · intro dm hdm ha
    simp [latestRun, hc, hdm, ha]
  · intro cells hc
    simp [latestRun, hc]

/-- C2 counterexample: the cell `r2OnlyCell` (detected, `metrics.accuracy = null`,
`customMetrics.r2 = 0.81`) qualifies for the leaderboard with effective accuracy
0.81, yet `latestRun` on the one-cell notebook holding it is `none`, refuting
the claim that such a cell "qualifies with effective accuracy 0.81" for
`latestRun` and that `latestRun` is null only when no cell qualifies. -/
theorem C2_latestRun_counterexample :
    cellQualifies r2OnlyCell = true
    ∧ (detectedRuns [r2OnlyCell]).map (fun r => r.accuracy) = [mkRat 81 100]
    ∧ latestCell [r2OnlyCell] = some r2OnlyCell
    ∧ latestRun [r2OnlyCell] = none := by decide

theorem processLine_modelType (a : ParseAcc) (p : List Char) :
    processLine a (mMODEL ++ p) = { a with modelType := some (trimL p) } := rfl

theorem processLine_accuracy (a : ParseAcc) (p : List Char) :
    processLine a (mACC ++ p) = { a with accuracy := some (parseFloatM (trimL p)) } := rfl

theorem processLine_datasetInfo (a : ParseAcc) (p : List Char) :
    processLine a (mDATASET ++ p) =
      (match jsonParse (trimL p) with
       | some j => { a with datasetInfo := some j }
       | none => a) := rfl

theorem processLine_confusionMatrix (a : ParseAcc) (p : List Char) :
    processLine a (mCM ++ p) =
      (match jsonParse (trimL p) with
       | some j => { a with confusionMatrix := some j }
       | none => a) := rfl

theorem processLine_dataPreview (a : ParseAcc) (p : List Char) :
    processLine a (mDP ++ p) =
      (match jsonParse (trimL p) with
       | some j =>
         (match jsFieldAccess j "columns".data with
          | some cv =>
            (match jsFieldAccess j "rows".data with
             | some rv => { a with dpColumns := jsOrEmptyArr cv, dpRows := jsOrEmptyArr rv }
             | none => a)
          | none => a)
       | none => a) := rfl

theorem processLine_dataStats (a : ParseAcc) (p : List Char) :
    processLine a (mDS ++ p) =
      (match jsonParse (trimL p) with
       | some j => { a with dpStats := j }
       | none => a) := rfl

theorem processLine_distributions (a : ParseAcc) (p : List Char) :
    processLine a (mFD ++ p) =
      (match jsonParse (trimL p) with
       | some j => { a with dpDists := j }
       | none => a) := rfl

/-- A sentinel line with a JSON payload that fails to parse leaves the
accumulator untouched (the per-line `try/catch` of `parseRunOutput`). -/
theorem processLine_json_skip (a : ParseAcc) (m p : List Char)
    (hm : m = mDATASET ∨ m = mCM ∨ m = mDP ∨ m = mDS ∨ m = mFD)
    (hp : jsonParse (trimL p) = none) :
    processLine a (m ++ p) = a := by
  rcases hm with h | h | h | h | h <;> subst h
  · rw [processLine_datasetInfo, hp]
  · rw [processLine_confusionMatrix, hp]
  · rw [processLine_dataPreview, hp]
  · rw [processLine_dataStats, hp]
  · rw [processLine_distributions, hp]

/-- C3: tier-1 parsing of a stdout consisting solely of well-formed sentinel
lines yields exactly the record with each recognized tag's payload, and nothing
else.  The general part covers any `MODEL_TYPE:`/`ACCURACY:`/`CONFUSION_MATRIX:`
payloads whose accuracy parses to a number and whose matrix payload is valid
JSON; the closed part is the spec's example.  The parse returns normally
(`some`, no abort) with exactly those fields.  `parseRunOutput` is a pure
function of the stdout string alone — tier-1 parsing is deterministic and
involves no AI-gateway call (the gateway is a separate code path that does not
occur in this definition). -/
theorem C3_taggedLine_roundTrip :
    (∀ p1 p2 p3 : List Char, ∀ x : JsNum, ∀ M : Json,
      parseFloatM (trimL p2) = x → jsonParse (trimL p3) = some M →
      parseRunLines [mMODEL ++ p1, mACC ++ p2, mCM ++ p3] =
        some { modelType := some (trimL p1), accuracy := some x, confusionMatrix := some M })
    ∧ parseRunOutput "MODEL_TYPE: X\nACCURACY: 0.87\nCONFUSION_MATRIX: [[1,2],[3,4]]" =
        some { modelType := some ['X'], accuracy := some (JsNum.num (mkRat 87 100)),
               confusionMatrix := some (Json.arr [Json.arr [Json.num 1, Json.num 2],
                 Json.arr [Json.num 3, Json.num 4]]) } := by
  constructor
  · intro p1 p2 p3 x M h2 h3
    show finalizeParse
        (processLine (processLine (processLine {} (mMODEL ++ p1)) (mACC ++ p2)) (mCM ++ p3)) = _
    rw [processLine_modelType, processLine_accuracy, processLine_confusionMatrix, h3, h2]
    rfl
  · rfl

/-- C8 (amended): a sentinel line whose JSON payload is malformed is silently
skipped by the per-line `try/catch` — parsing the line list with the malformed
line is parsing it with that line removed, so every other line still populates
its field and only the malformed field stays absent (on the spec's example, a
malformed `CONFUSION_MATRIX:` line among valid lines leaves exactly
`confusionMatrix` absent, and the parse returns normally).  The original
claim's "for every stdout input, tier-1 parsing never aborts or raises" is
false, however: the data-preview combination step after the line loop sits
outside the `try/catch`, and a well-formed `DATA_STATS:` line whose payload is
the JSON value `null` makes `Object.keys(dataStats)` throw an uncaught
`TypeError` there, aborting `parseRunOutput` (see the counterexample
theorem). -/
theorem C8_malformedLine_tolerance :
    (∀ pre post : List (List Char), ∀ m p : List Char,
      (m = mDATASET ∨ m = mCM ∨ m = mDP ∨ m = mDS ∨ m = mFD) →
      jsonParse (trimL p) = none →
      parseRunLines (pre ++ (m ++ p) :: post) = parseRunLines (pre ++ post))
    ∧ parseRunOutput "MODEL_TYPE: X\nCONFUSION_MATRIX: [[1,2],[3,4\nACCURACY: 0.87" =
        some { modelType := some ['X'], accuracy := some (JsNum.num (mkRat 87 100)),
               confusionMatrix := none } := by
  constructor
  · intro pre post m p hm hp
    unfold parseRunLines
    rw [List.foldl_append, List.foldl_append, List.foldl_cons,
      processLine_json_skip _ m p hm hp]
  · rfl

/-- C8 counterexample: a stdout whose lines are all well formed — `MODEL_TYPE:
X` and `DATA_STATS: null`, where `null` is valid JSON, so the per-line
`try/catch` never fires — still makes tier-1 parsing abort: `dataStats`
becomes `null`, there are no data-preview columns to short-circuit the guard,
and `Object.keys(dataStats)` in the combination step (outside the `try/catch`)
throws an uncaught `TypeError`.  `parseRunOutput` returns nothing at all (the
other line's field is lost too), refuting "parsing never aborts or raises". -/
theorem C8_dataStats_null_abort :
    jsonParse "null".data = some Json.null
    ∧ parseRunOutput "MODEL_TYPE: X\nDATA_STATS: null" = none :=
  ⟨rfl, rfl⟩

/-- C4 (code bug): in `exDb` the id "s1" exists in the ML-session table (the
table `POST /api/sessions` writes and `POST /api/runs` checks) and owns one
run, yet `GET /api/runs/:sessionId` answers 404, because the handler verifies
the id against `prisma.session` — the better-auth session table — instead of
`prisma.mLSession`. -/
theorem C4_getRuns_wrong_table :
    postRunSessionOk exDb "s1" = true
    ∧ exDb.mlSessions.contains "s1" = true
    ∧ (exDb.runs.filter (fun r => r.sessionId == "s1")).length = 1
    ∧ getRunsForSession exDb "s1" = RunsResponse.notFound := by decide

/-- C5 counterexample: `runAllExperiments` of the model-builder chat runs all
five experiments of the batch — a cancellation request arriving after the
second experiment completes changes nothing, because the function consults no
stop flag; experiment #3 ends `completed`, and the batch never matches the
claimed `[terminal, terminal, pending, pending, pending]` shape. -/
theorem C5_runAll_counterexample :
    (chatRunAllExperiments fiveBatch).map (fun e => e.status) =
      [ExpStatus.completed, ExpStatus.completed, ExpStatus.completed,
       ExpStatus.completed, ExpStatus.completed]
    ∧ (chatRunAllExperiments fiveBatch).map (fun e => e.status) ≠
      [ExpStatus.completed, ExpStatus.completed, ExpStatus.pending,
       ExpStatus.pending, ExpStatus.pending] := by decide

theorem chatRunExperiment_terminal (exp : ChatExperiment) (env : ChatExecEnv) :
    (chatRunExperiment exp env).status = ExpStatus.completed
    ∨ (chatRunExperiment exp env).status = ExpStatus.failed := by
  cases env with
  | ok detectedAcc stdout error =>
    cases detectedAcc with
    | some a => left; rfl
    | none =>
      simp only [chatRunExperiment]
      split
      · right; rfl
      · left; rfl
  | threw msg => right; rfl

/-- C5 (amended): the chat-panel `runAllExperiments` supports no cooperative
cancellation: it consults no stop flag, runs every experiment of the batch, and
every experiment ends in a terminal state (`completed` or `failed`) — no
experiment remains `pending` regardless of when a stop is requested.  (The
stop-flag check before each next experiment exists only in the AIPanel
auto-run loop, a different function.) -/
theorem C5_runAll_no_cancellation :
    (∀ batch : List (ChatExperiment × ChatExecEnv),
      (chatRunAllExperiments batch).length = batch.length
      ∧ ∀ e ∈ chatRunAllExperiments batch,
          e.status = ExpStatus.completed ∨ e.status = ExpStatus.failed)
    ∧ (chatRunAllExperiments fiveBatch).map (fun e => e.status) =
        List.replicate 5 ExpStatus.completed := by
  refine ⟨fun batch => ⟨List.length_map _ _, ?_⟩, by decide⟩
  intro e he
  rcases List.mem_map.mp he with ⟨p, _, rfl⟩
  exact chatRunExperiment_terminal p.1 p.2

/-- C6 counterexample: an experiment that executes without error
(`error = none`), whose stdout "hello world" matches neither accuracy regex,
and whose detection reports nothing, completes — but its accuracy is left
`undefined` (`none`), not `0`. -/
theorem C6_accuracy_counterexample :
    (chatRunExperiment (pendingExp "exp") (ChatExecEnv.ok none "hello world" none)).status =
      ExpStatus.completed
    ∧ (chatRunExperiment (pendingExp "exp") (ChatExecEnv.ok none "hello world" none)).accuracy =
      none
    ∧ (chatRunExperiment (pendingExp "exp") (ChatExecEnv.ok none "hello world" none)).accuracy ≠
      some (JsNum.num 0) := by decide

/-- C6 (amended): when execution succeeds, detection yields nothing and no
accuracy pattern matches, the chat-flow `runExperiment` reaches `completed`
with the accuracy left undefined (`none`, not `0`); the AIPanel
`runSingleExperiment` is the variant that records accuracy `0` in the same
situation. -/
theorem C6_no_accuracy_completed :
    (∀ exp : ChatExperiment, ∀ stdout : String,
      extractAccCapture (chatFallbackOut stdout).data = none →
      (chatRunExperiment exp (ChatExecEnv.ok none stdout none)).status = ExpStatus.completed
      ∧ (chatRunExperiment exp (ChatExecEnv.ok none stdout none)).accuracy = none)
    ∧ (∀ name mt stdout : String,
      extractAccCapture stdout.data = none →
      (panelRunSingleExperiment name mt (PanelExecEnv.ok stdout)).status = ExpStatus.completed
      ∧ (panelRunSingleExperiment name mt (PanelExecEnv.ok stdout)).accuracy = JsNum.num 0) := by
  constructor
  · intro exp stdout h
    constructor
    · simp [chatRunExperiment]
    · simp [chatRunExperiment, h]
  · intro name mt stdout h
    constructor
    · rfl
    · simp [panelRunSingleExperiment, h]

theorem find?_updById (l : List Cell) (id : String) (f : Cell → Cell)
    (hf : ∀ c, (f c).id = c.id) :
    (l.map fun c => if c.id == id then f c else c).find? (fun c => c.id == id) =
      (l.find? (fun c => c.id == id)).map f := by
  induction l with
  | nil => rfl
  | cons a t ih =>
    simp only [List.map_cons, List.find?_cons]
    by_cases hb : a.id = id
    · have h1 : (a.id == id) = true := by simp [hb]
      have h2 : ((f a).id == id) = true := by simp [hf a, hb]
      rw [if_pos h1, h1, h2]
      rfl
    · have h1 : (a.id == id) = false := by simp [hb]
      rw [if_neg (by simp [hb]), h1]
      dsimp only
      exact ih

theorem map_updById_comp (l : List Cell) (id : String) (f g : Cell → Cell)
    (hf : ∀ c, (f c).id = c.id) :
    ((l.map fun c => if c.id == id then f c else c).map fun c => if c.id == id then g c else c) =
      l.map fun c => if c.id == id then g (f c) else c := by
  rw [List.map_map]
  apply List.map_congr_left
  intro c _
  by_cases h : (c.id == id) = true
  · simp only [Function.comp_apply, if_pos h]
    rw [if_pos (by rw [hf c]; exact h)]
  · simp only [Function.comp_apply, if_neg h, if_neg h]

theorem runCell_eval_threw (s : NotebookState) (id : String) (cell : Cell) (msg : String)
    (hfind : s.cells.find? (fun c => c.id == id) = some cell)
    (hcode : cell.type = CellType.code) (det : DetOutcome) :
    runCell s id true (ExecOutcome.threw msg) det =
      (runCellResult s id none (some msg) none, false) := by
  unfold runCell
  rw [hfind]
  dsimp only
  rw [if_neg (by simp [hcode])]
  unfold setCellRunning setCellOutput setCellDetectedModel runCellResult runDoneUpd
  dsimp only
  rw [map_updById_comp, map_updById_comp, map_updById_comp, map_updById_comp]
  all_goals exact fun _ => rfl

theorem runCell_eval_ok_detected (s : NotebookState) (id : String) (cell : Cell)
    (stdout : String) (err : Option String) (dm : DetectedModel)
    (hfind : s.cells.find? (fun c => c.id == id) = some cell)
    (hcode : cell.type = CellType.code)
    (hcond : (stdout != "" && (normErr err).isNone) = true) :
    runCell s id true (ExecOutcome.ok stdout err) (DetOutcome.detected dm) =
      (runCellResult s id (some stdout) (normErr err) (some dm), true) := by
  unfold runCell
  rw [hfind]
  try dsimp only
  rw [if_neg (by simp [hcode])]
  try dsimp only
  rw [if_pos hcond]
  unfold setCellRunning setCellOutput setCellDetectedModel runCellResult runDoneUpd
  try dsimp only
  rw [map_updById_comp, map_updById_comp, map_updById_comp, map_updById_comp, map_updById_comp]
  all_goals exact fun _ => rfl

theorem runCell_eval_ok_undetected (s : NotebookState) (id : String) (cell : Cell)
    (stdout : String) (err : Option String) (det : DetOutcome)
    (hfind : s.cells.find? (fun c => c.id == id) = some cell)
    (hcode : cell.type = CellType.code)
    (hcond : (stdout != "" && (normErr err).isNone) = true)
    (hdet : det = DetOutcome.noModel ∨ det = DetOutcome.failed) :
    runCell s id true (ExecOutcome.ok stdout err) det =
      (runCellResult s id (some stdout) (normErr err) none, true) := by
  unfold runCell
  rw [hfind]
  try dsimp only
  rw [if_neg (by simp [hcode])]
  try dsimp only
  rw [if_pos hcond]
  rcases hdet with h | h <;> subst h
  · unfold setCellRunning setCellOutput setCellDetectedModel runCellResult runDoneUpd
    try dsimp only
    rw [map_updById_comp, map_updById_comp, map_updById_comp, map_updById_comp]
    all_goals exact fun _ => rfl
  · unfold setCellRunning setCellOutput setCellDetectedModel runCellResult runDoneUpd
    try dsimp only
    rw [map_updById_comp, map_updById_comp, map_updById_comp, map_updById_comp]
    all_goals exact fun _ => rfl

theorem runCell_eval_ok_skipdet (s : NotebookState) (id : String) (cell : Cell)
    (stdout : String) (err : Option String) (det : DetOutcome)
    (hfind : s.cells.find? (fun c => c.id == id) = some cell)
    (hcode : cell.type = CellType.code)
    (hcond : (stdout != "" && (normErr err).isNone) = false) :
    runCell s id true (ExecOutcome.ok stdout err) det =
      (runCellResult s id (some stdout) (normErr err) none, false) := by
  unfold runCell
  rw [hfind]
  try dsimp only
  rw [if_neg (by simp [hcode])]
  try dsimp only
  rw [if_neg (by rw [hcond]; exact Bool.false_ne_true)]
  unfold setCellRunning setCellOutput setCellDetectedModel runCellResult runDoneUpd
  try dsimp only
  rw [map_updById_comp, map_updById_comp, map_updById_comp, map_updById_comp]
  all_goals exact fun _ => rfl

theorem find?_runCellResult (s : NotebookState) (id : String) (o e : Option String)
    (dm : Option DetectedModel) :
    (runCellResult s id o e dm).cells.find? (fun c => c.id == id) =
      (s.cells.find? (fun c => c.id == id)).map (runDoneUpd o e dm) :=
  find?_updById s.cells id (runDoneUpd o e dm) (fun _ => rfl)

theorem find?_withCellFields (s : NotebookState) (id : String) (o e : Option String)
    (dm : Option DetectedModel) :
    (withCellFields s id o e dm).cells.find? (fun c => c.id == id) =
      (s.cells.find? (fun c => c.id == id)).map
        (fun c => { c with output := o, error := e, detectedModel := dm }) :=
  find?_updById s.cells id _ (fun _ => rfl)

theorem runCellResult_withCellFields (s : NotebookState) (id : String)
    (o e : Option String) (dm : Option DetectedModel) (o2 e2 : Option String)
    (dm2 : Option DetectedModel) :
    runCellResult (withCellFields s id o e dm) id o2 e2 dm2 =
      runCellResult (withCellFields s id none none none) id o2 e2 dm2 := by
  unfold runCellResult withCellFields runDoneUpd
  dsimp only
  rw [map_updById_comp, map_updById_comp]
  all_goals exact fun _ => rfl

/-- C7: for every code cell found in the store (engine ready), `runCell`
(1) issues the tier-2 detection request exactly when execution resolved with a
non-empty stdout and no error; (2) leaves the cell's `isRunning` false after
returning, on every path; (3) treats a failed detection exactly like a
"no model detected" response (same final state — no user-visible error);
(4) on the detection-failure path stores the execution's stdout/error on the
cell, with no detection attached; and (5) clears the cell's prior `output`,
`error` and `detectedModel` before executing — the run's outcome is the same
whatever stale values those fields held. -/
theorem C7_runCell_spec (s : NotebookState) (id : String) (cell : Cell)
    (hfind : s.cells.find? (fun c => c.id == id) = some cell)
    (hcode : cell.type = CellType.code) :
    (∀ exec det, ((runCell s id true exec det).2 = true ↔
        ∃ stdout err, exec = ExecOutcome.ok stdout err ∧ stdout ≠ "" ∧ normErr err = none))
    ∧ (∀ exec det c',
        (runCell s id true exec det).1.cells.find? (fun c => c.id == id) = some c' →
        c'.isRunning = false)
    ∧ (∀ exec, runCell s id true exec DetOutcome.failed = runCell s id true exec DetOutcome.noModel)
    ∧ (∀ stdout err,
        (runCell s id true (ExecOutcome.ok stdout err) DetOutcome.failed).1.cells.find?
            (fun c => c.id == id) =
          some { cell with
                  output := some stdout, error := normErr err,
                  isRunning := false, detectedModel := none })
    ∧ (∀ o e dm exec det,
        runCell (withCellFields s id o e dm) id true exec det =
          runCell (withCellFields s id none none none) id true exec det) := by
  have hfind2 : ∀ (o e : Option String) (dm : Option DetectedModel),
      (withCellFields s id o e dm).cells.find? (fun c => c.id == id) =
        some { cell with output := o, error := e, detectedModel := dm } := by
    intro o e dm
    rw [find?_withCellFields, hfind]
    rfl
  refine ⟨?_, ?_, ?_, ?_, ?_⟩
  · intro exec det
    cases exec with
    | threw m =>
      rw [runCell_eval_threw s id cell m hfind hcode det]
      simp
    | ok stdout err =>
      cases hcond : (stdout != "" && (normErr err).isNone) with
      | true =>
        have h2 : stdout ≠ "" ∧ normErr err = none := by
          have h3 := hcond
          simp only [Bool.and_eq_true, bne_iff_ne, ne_eq, Option.isNone_iff_eq_none] at h3
          exact h3
        cases det with
        | detected dm =>
          rw [runCell_eval_ok_detected s id cell stdout err dm hfind hcode hcond]
          exact iff_of_true rfl ⟨stdout, err, rfl, h2.1, h2.2⟩
        | noModel =>
          rw [runCell_eval_ok_undetected s id cell stdout err _ hfind hcode hcond (Or.inl rfl)]
          exact iff_of_true rfl ⟨stdout, err, rfl, h2.1, h2.2⟩
        | failed =>
          rw [runCell_eval_ok_undetected s id cell stdout err _ hfind hcode hcond (Or.inr rfl)]
          exact iff_of_true rfl ⟨stdout, err, rfl, h2.1, h2.2⟩
      | false =>
        rw [runCell_eval_ok_skipdet s id cell stdout err det hfind hcode hcond]
        have h2 : ¬(stdout ≠ "" ∧ normErr err = none) := by
          intro h3
          have hb1 : (stdout != "") = true := bne_iff_ne.mpr h3.1
          have hb2 : (normErr err).isNone = true := Option.isNone_iff_eq_none.mpr h3.2
          rw [hb1, hb2] at hcond
          exact absurd hcond (by decide)
        refine iff_of_false (by simp) ?_
        rintro ⟨st, er, heq, hne, hnorm⟩
        cases heq
        exact h2 ⟨hne, hnorm⟩
  · intro exec det c' hc'
    have hfalse : ∀ o e dm2,
        (runCellResult s id o e dm2).cells.find? (fun c => c.id == id) = some c' →
        c'.isRunning = false := by
      intro o e dm2 h
      rw [find?_runCellResult, hfind] at h
      cases h
      rfl
    cases exec with
    | threw m =>
      rw [runCell_eval_threw s id cell m hfind hcode det] at hc'
      exact hfalse _ _ _ hc'
    | ok stdout err =>
      cases hcond : (stdout != "" && (normErr err).isNone) with
      | true =>
        cases det with
        | detected dm =>
          rw [runCell_eval_ok_detected s id cell stdout err dm hfind hcode hcond] at hc'
          exact hfalse _ _ _ hc'
        | noModel =>
          rw [runCell_eval_ok_undetected s id cell stdout err _ hfind hcode hcond (Or.inl rfl)] at hc'
          exact hfalse _ _ _ hc'
        | failed =>
          rw [runCell_eval_ok_undetected s id cell stdout err _ hfind hcode hcond (Or.inr rfl)] at hc'
          exact hfalse _ _ _ hc'
      | false =>
        rw [runCell_eval_ok_skipdet s id cell stdout err det hfind hcode hcond] at hc'
        exact hfalse _ _ _ hc'
  · intro exec
    cases exec with
    | threw m =>
      rw [runCell_eval_threw s id cell m hfind hcode DetOutcome.failed,
        runCell_eval_threw s id cell m hfind hcode DetOutcome.noModel]
    | ok stdout err =>
      cases hcond : (stdout != "" && (normErr err).isNone) with
      | true =>
        rw [runCell_eval_ok_undetected s id cell stdout err _ hfind hcode hcond (Or.inr rfl),
          runCell_eval_ok_undetected s id cell stdout err _ hfind hcode hcond (Or.inl rfl)]
      | false =>
        rw [runCell_eval_ok_skipdet s id cell stdout err _ hfind hcode hcond,
          runCell_eval_ok_skipdet s id cell stdout err _ hfind hcode hcond]
  · intro stdout err
    cases hcond : (stdout != "" && (normErr err).isNone) with
    | true =>
      rw [runCell_eval_ok_undetected s id cell stdout err _ hfind hcode hcond (Or.inr rfl)]
      rw [find?_runCellResult, hfind]
      rfl
    | false =>
      rw [runCell_eval_ok_skipdet s id cell stdout err _ hfind hcode hcond]
      rw [find?_runCellResult, hfind]
      rfl
  · intro o e dm exec det
    have hcode2 : ({ cell with output := o, error := e, detectedModel := dm } : Cell).type =
        CellType.code := hcode
    have hcode0 : ({ cell with output := none, error := none, detectedModel := none } : Cell).type =
        CellType.code := hcode
    cases exec with
    | threw m =>
      rw [runCell_eval_threw _ id _ m (hfind2 o e dm) hcode2 det,
        runCell_eval_threw _ id _ m (hfind2 none none none) hcode0 det,
        runCellResult_withCellFields]
    | ok stdout err =>
      cases hcond : (stdout != "" && (normErr err).isNone) with
      | true =>
        cases det with
        | detected dm2 =>
          rw [runCell_eval_ok_detected _ id _ stdout err dm2 (hfind2 o e dm) hcode2 hcond,
            runCell_eval_ok_detected _ id _ stdout err dm2 (hfind2 none none none) hcode0 hcond,
            runCellResult_withCellFields]
        | noModel =>
          rw [runCell_eval_ok_undetected _ id _ stdout err _ (hfind2 o e dm) hcode2 hcond (Or.inl rfl),
            runCell_eval_ok_undetected _ id _ stdout err _ (hfind2 none none none) hcode0 hcond (Or.inl rfl),
            runCellResult_withCellFields]
        | failed =>
          rw [runCell_eval_ok_undetected _ id _ stdout err _ (hfind2 o e dm) hcode2 hcond (Or.inr rfl),
            runCell_eval_ok_undetected _ id _ stdout err _ (hfind2 none none none) hcode0 hcond (Or.inr rfl),
            runCellResult_withCellFields]
      | false =>
        rw [runCell_eval_ok_skipdet _ id _ stdout err det (hfind2 o e dm) hcode2 hcond,
          runCell_eval_ok_skipdet _ id _ stdout err det (hfind2 none none none) hcode0 hcond,
          runCellResult_withCellFields]

/-- C7 witness: the `runCell` theorem instantiated on the concrete notebook
`c7State`, whose cell "a" holds stale output, error and detection: after a run
with stdout "out" whose detection fails, the cell stores the new output, no
error and no detection, with `isRunning` false. -/
theorem C7_runCell_witness :
    (runCell c7State "a" true (ExecOutcome.ok "out" none) DetOutcome.failed).1.cells.find?
        (fun c => c.id == "a") =
      some { c7Cell with
              output := some "out", error := none, isRunning := false, detectedModel := none } :=
  (C7_runCell_spec c7State "a" c7Cell (by decide) rfl).2.2.2.1 "out" none

theorem lt_length_of_get?_eq_some (l : List Cell) (i : ℕ) (a : Cell)
    (h : l.get? i = some a) : i < l.length := by
  by_contra hc
  rw [List.get?_eq_none.mpr (le_of_not_lt hc)] at h
  exact Option.noConfusion h

theorem mem_swapIdx (l : List Cell) (i j : ℕ) (x : Cell) (hx : x ∈ l) :
    x ∈ swapIdx l i j := by
  unfold swapIdx
  cases ha : l.get? i with
  | none => exact hx
  | some a =>
    cases hb : l.get? j with
    | none => exact hx
    | some b =>
      have hi := lt_length_of_get?_eq_some l i a ha
      have hj := lt_length_of_get?_eq_some l j b hb
      rcases List.mem_iff_get?.mp hx with ⟨n, hn⟩
      apply List.mem_iff_get?.mpr
      by_cases hnj : n = j
      · have hxb : b = x := by
          rw [← hnj] at hb
          rw [hn] at hb
          exact (Option.some_injective _ hb).symm
        by_cases hij : i = j
        · have hab : a = b := by
            rw [hij] at ha
            rw [ha] at hb
            exact Option.some_injective _ hb
          refine ⟨j, ?_⟩
          rw [List.get?_set_eq_of_lt _ (by rw [List.length_set]; exact hj)]
          rw [hab, hxb]
        · refine ⟨i, ?_⟩
          rw [List.get?_set_ne _ _ (fun hh => hij hh.symm),
            List.get?_set_eq_of_lt _ hi, hxb]
      · by_cases hni : n = i
        · have hxa : a = x := by
            rw [← hni] at ha
            rw [hn] at ha
            exact (Option.some_injective _ ha).symm
          refine ⟨j, ?_⟩
          rw [List.get?_set_eq_of_lt _ (by rw [List.length_set]; exact hj), hxa]
        · refine ⟨n, ?_⟩
          rw [List.get?_set_ne _ _ (fun hh => hnj hh.symm),
            List.get?_set_ne _ _ (fun hh => hni hh.symm)]
          exact hn

theorem ids_updById (l : List Cell) (id : String) (f : Cell → Cell)
    (hf : ∀ c, (f c).id = c.id) :
    ((l.map fun c => if c.id == id then f c else c).map fun c => c.id) =
      l.map fun c => c.id := by
  rw [List.map_map]
  apply List.map_congr_left
  intro c _
  by_cases h : (c.id == id) = true
  · simp only [Function.comp_apply, if_pos h, hf c]
  · simp only [Function.comp_apply, if_neg h]

theorem filter_ne_length_ge (l : List Cell) (id : String)
    (hnodup : (l.map fun c => c.id).Nodup) :
    l.length - 1 ≤ (l.filter fun c => c.id != id).length := by
  induction l with
  | nil => simp
  | cons a t ih =>
    simp only [List.map_cons, List.nodup_cons] at hnodup
    by_cases h : a.id = id
    · have hkeep : t.filter (fun c => c.id != id) = t := by
        apply List.filter_eq_self.mpr
        intro c hc
        have hcne : c.id ≠ a.id := by
          intro hh
          exact hnodup.1 (hh ▸ List.mem_map_of_mem (fun c => c.id) hc)
        rw [← h]
        exact bne_iff_ne.mpr hcne
      have hdrop : (a.id != id) = false := by
        simp [h]
      simp only [List.filter_cons, hdrop, hkeep, List.length_cons]
      simp
    · have hkeepa : (a.id != id) = true := bne_iff_ne.mpr h
      simp only [List.filter_cons, hkeepa, List.length_cons]
      have := ih hnodup.2
      simp
      omega

theorem ids_map_of_id_preserved (l : List Cell) (f : Cell → Cell)
    (hf : ∀ c, (f c).id = c.id) :
    ((l.map f).map fun c => c.id) = l.map fun c => c.id := by
  rw [List.map_map]
  apply List.map_congr_left
  intro c _
  exact hf c

theorem length_insertAfterId (cells : List Cell) (afterId : Option String) (nc : Cell) :
    (insertAfterId cells afterId nc).length = cells.length + 1 := by
  unfold insertAfterId
  cases afterId with
  | none => simp
  | some aid =>
    cases h : cells.findIdx? (fun c => c.id == aid) with
    | none => simp [h]
    | some i =>
      simp only [h, List.length_append, List.length_take, List.length_drop, List.length_cons]
      omega

theorem mem_insertAfterId (cells : List Cell) (afterId : Option String) (nc c : Cell)
    (hc : c ∈ cells) : c ∈ insertAfterId cells afterId nc := by
  unfold insertAfterId
  cases afterId with
  | none => exact List.mem_append_left _ hc
  | some aid =>
    dsimp only
    cases cells.findIdx? (fun cc => cc.id == aid) with
    | none => exact List.mem_append_left _ hc
    | some i =>
      conv at hc => rw [← List.take_append_drop (i + 1) cells]
      rcases List.mem_append.mp hc with h | h
      · exact List.mem_append_left _ h
      · exact List.mem_append_right _ (List.mem_cons_of_mem _ h)

theorem length_swapIdx (l : List Cell) (i j : ℕ) : (swapIdx l i j).length = l.length := by
  unfold swapIdx
  cases l.get? i with
  | none => rfl
  | some a =>
    cases l.get? j with
    | none => rfl
    | some b => simp [List.length_set]

/-- C9 counterexample: `setCells` — an operation other than `deleteCell` — can
remove cells and empty the store: replacing the cells of a one-cell notebook
with the empty list leaves zero cells, so the cell count is not always at
least 1 across the store's operations. -/
theorem C9_setCells_counterexample :
    oneCellState.cells.length = 1
    ∧ (applyCellOp (CellOp.setCellList []) oneCellState).cells.length = 0 := by decide

/-- C9 (amended): the never-empty invariant holds for every cell-store
operation except wholesale replacement: `deleteCell` is a no-op when at most
one cell remains; with distinct cell ids (as generated) a delete keeps the
count at least 1; every operation other than `deleteCell` and `setCells`
preserves or grows the count and removes no cell (every id stays present);
when the deleted cell was active the new active cell is the one of the
remaining list at index `deletedIndex - 1` (clamped at 0); and the initial
store always holds at least one cell.  `setCells` alone replaces the whole
list with its argument. -/
theorem C9_cellCount_spec :
    (∀ s : NotebookState, ∀ id : String,
        s.cells.length ≤ 1 → applyCellOp (CellOp.delete id) s = s)
    ∧ (∀ s : NotebookState, ∀ id : String,
        (s.cells.map fun c => c.id).Nodup → 1 ≤ s.cells.length →
        1 ≤ (applyCellOp (CellOp.delete id) s).cells.length)
    ∧ (∀ s : NotebookState, ∀ op : CellOp,
        (∀ cs, op ≠ CellOp.setCellList cs) → (∀ i, op ≠ CellOp.delete i) →
        s.cells.length ≤ (applyCellOp op s).cells.length
        ∧ ∀ x ∈ s.cells.map (fun c => c.id), x ∈ (applyCellOp op s).cells.map (fun c => c.id))
    ∧ (∀ s : NotebookState, ∀ id : String, ∀ i : ℕ,
        2 ≤ s.cells.length → s.activeCellId = some id →
        s.cells.findIdx? (fun c => c.id == id) = some i →
        (∀ c ∈ s.cells, c.id ≠ "") →
        (applyCellOp (CellOp.delete id) s).activeCellId =
          ((s.cells.filter fun c => c.id != id).get? (i - 1)).map (fun c => c.id))
    ∧ (∀ initialCells : List Cell, ∀ defaultId : String,
        1 ≤ (initNotebookState initialCells defaultId).cells.length) := by
  refine ⟨?_, ?_, ?_, ?_, ?_⟩
  · intro s id h
    unfold applyCellOp deleteCell
    dsimp only
    rw [if_pos h]
  · intro s id hnodup h1
    unfold applyCellOp deleteCell
    dsimp only
    by_cases h : s.cells.length ≤ 1
    · rw [if_pos h]
      exact h1
    · rw [if_neg h]
      have := filter_ne_length_ge s.cells id hnodup
      dsimp only
      omega
  · intro s op hset hdel
    cases op with
    | add newId t afterId =>
      constructor
      · unfold applyCellOp addCell
        dsimp only
        rw [length_insertAfterId]
        omega
      · intro x hx
        rcases List.mem_map.mp hx with ⟨c, hc, rfl⟩
        exact List.mem_map_of_mem _ (mem_insertAfterId _ _ _ _ hc)
    | addWithContent newId t content afterId =>
      constructor
      · unfold applyCellOp addCellWithContent
        dsimp only
        rw [length_insertAfterId]
        omega
      · intro x hx
        rcases List.mem_map.mp hx with ⟨c, hc, rfl⟩
        exact List.mem_map_of_mem _ (mem_insertAfterId _ _ _ _ hc)
    | delete i => exact absurd rfl (hdel i)
    | updateContent id content =>
      refine ⟨by simp [applyCellOp, updateCellContent], ?_⟩
      intro x hx
      unfold applyCellOp updateCellContent
      dsimp only
      rw [ids_updById]
      exact hx
      exact fun _ => rfl
    | setOutput id o e =>
      refine ⟨by simp [applyCellOp, setCellOutput], ?_⟩
      intro x hx
      unfold applyCellOp setCellOutput
      dsimp only
      rw [ids_updById]
      exact hx
      exact fun _ => rfl
    | setRunning id b =>
      refine ⟨by simp [applyCellOp, setCellRunning], ?_⟩
      intro x hx
      unfold applyCellOp setCellRunning
      dsimp only
      rw [ids_updById]
      exact hx
      exact fun _ => rfl
    | setDetected id dm =>
      refine ⟨by simp [applyCellOp, setCellDetectedModel], ?_⟩
      intro x hx
      unfold applyCellOp setCellDetectedModel
      dsimp only
      rw [ids_updById]
      exact hx
      exact fun _ => rfl
    | move id up =>
      unfold applyCellOp moveCell
      dsimp only
      cases hidx : s.cells.findIdx? (fun c => c.id == id) with
      | none => exact ⟨le_refl _, fun x hx => hx⟩
      | some i =>
        dsimp only
        by_cases hb : ((if up then (i : ℤ) - 1 else (i : ℤ) + 1) < 0
            || (s.cells.length : ℤ) ≤ (if up then (i : ℤ) - 1 else (i : ℤ) + 1)) = true
        · rw [if_pos hb]
          exact ⟨le_refl _, fun x hx => hx⟩
        · rw [if_neg hb]
          constructor
          · dsimp only
            rw [length_swapIdx]
          · intro x hx
            rcases List.mem_map.mp hx with ⟨c, hc, rfl⟩
            exact List.mem_map_of_mem _ (mem_swapIdx _ _ _ _ hc)
    | setActive idOpt => exact ⟨le_refl _, fun x hx => hx⟩
    | convertType id t =>
      refine ⟨by simp [applyCellOp, convertCellType], ?_⟩
      intro x hx
      unfold applyCellOp convertCellType
      dsimp only
      rw [ids_updById]
      exact hx
      exact fun _ => rfl
    | clearOutputs =>
      refine ⟨by simp [applyCellOp, clearAllOutputs], ?_⟩
      intro x hx
      unfold applyCellOp clearAllOutputs
      dsimp only
      rw [ids_map_of_id_preserved]
      exact hx
      exact fun _ => rfl
    | setCellList cs => exact absurd rfl (hset cs)
  · intro s id i h2 hact hidx hne
    unfold applyCellOp deleteCell
    dsimp only
    rw [if_neg (by omega)]
    dsimp only
    rw [hidx, if_pos hact]
    cases hget : (s.cells.filter fun c => c.id != id).get? (i - 1) with
    | none => simp [hget]
    | some c =>
      have hc : c ∈ s.cells := List.mem_of_mem_filter (List.get?_mem hget)
      simp [hget, hne c hc]
  · intro initialCells defaultId
    unfold initNotebookState
    by_cases h : 0 < initialCells.length
    · rw [if_pos h]
      exact h
    · rw [if_neg h]
      simp

/-- C10: deleting a cell that is not the active cell (in a notebook with at
least two cells, where the deletion happens) leaves `activeCellId` unchanged
and leaves the remaining cells — all their fields and their relative order —
exactly as they were: the new list is the old one with only the target
filtered out.  When at most one cell remains the call leaves the whole state
untouched.  The closed conjunct checks the concrete three-cell notebook. -/
theorem C10_delete_frame :
    (∀ s : NotebookState, ∀ id : String,
        2 ≤ s.cells.length → s.activeCellId ≠ some id →
        deleteCell s id =
          { cells := s.cells.filter fun c => c.id != id, activeCellId := s.activeCellId })
    ∧ (∀ s : NotebookState, ∀ id : String, s.cells.length ≤ 1 → deleteCell s id = s)
    ∧ deleteCell threeCellState "y" =
        { cells := [{ id := "x", type := CellType.code, content := "1" },
                    { id := "z", type := CellType.code, content := "3" }],
          activeCellId := some "x" } := by
  refine ⟨?_, ?_, by decide⟩
  · intro s id h2 hact
    unfold deleteCell
    rw [if_neg (by omega)]
    dsimp only
    rw [if_neg hact]
  · intro s id h
    unfold deleteCell
    rw [if_pos h]
